import Mathlib

/-!
Verification of the CI-V protocol engine of RemoteRadioControl
(`CIVCommands.py` and `CIVSerial.py`), as a shallow embedding.

Bytes are modelled as natural numbers (Python `bytes` elements are in
0..255; all masking the source performs is carried over explicitly).
Python `int` arithmetic is modelled on `Nat`/`Int`; Python floats only
occur in the power scaling, where `round((p / 100.0) * 255)` and
`round((raw / 255.0) * 100)` are modelled by exact rational arithmetic
with round-half-to-even (Python's `round`); on the full relevant domains
(p in 0..100, raw in 0..255) the double-precision computation and the
exact rational computation produce identical results, so the model is
extensionally exact there.
-/

namespace CIV

/-- One step of `CIVCommandSet._bcd_to_int_le` / `_scale_power`'s digit
assembly: the Python code appends `f"{d}"` (the decimal representation of
nibble `d`, `0 ≤ d ≤ 15`) to the digit string and finally applies `int`.
Appending the decimal representation of `d` to a string standing for the
number `n` yields the number `n * 10^(number of digits of d) + d`; for
`d ≤ 15` that digit count is 2 exactly when `10 ≤ d`. -/
def appendNib (n d : ℕ) : ℕ :=
  n * (if 10 ≤ d then 100 else 10) + d

/-- `CIVCommandSet._bcd_to_int_le`: iterate over the bytes in reverse
(little-endian), append the decimal representations of the high nibble
`(b >> 4) & 0xF` and the low nibble `b & 0xF` of each byte to a digit
string, and read the result back as an integer (`int(digits.lstrip("0")
or "0")`, numerically the plain value of the digit string). -/
def bcdToIntLe (bs : List ℕ) : ℕ :=
  bs.reverse.foldl (fun n b => appendNib (appendNib n (b / 16 % 16)) (b % 16)) 0

/-- The digit string of `CIVCommandSet._int_to_bcd_le`:
`str(int(value)).rjust(length * 2, "0")[-(length * 2):]` viewed as the
list of its decimal digits, most significant first.  Character `i` of that
string is the digit of `value` at decimal position `2*length - 1 - i`
(taking the last `2*length` characters of the decimal representation
keeps exactly the digits `value / 10^k % 10` for `k < 2*length`). -/
def paddedDigits (value length : ℕ) : List ℕ :=
  (List.range (2 * length)).map fun i => value / 10 ^ (2 * length - 1 - i) % 10

/-- The pairing loop of `CIVCommandSet._int_to_bcd_le`: split the digit
list into consecutive pairs `p` and pack each into the byte
`((int(p[0]) & 0xF) << 4) | (int(p[1]) & 0xF)`; digits are below 10, so
the masks are identities and the OR is addition `16 * hi + lo`. -/
def packPairs : List ℕ → List ℕ
  | a :: b :: rest => (16 * a + b) :: packPairs rest
  | _ => []

/-- `CIVCommandSet._int_to_bcd_le` (for a non-negative `value`; a negative
Python int would put a `'-'` character in the digit string and make
`int(p[0])` raise): pack the padded digit string into bytes and reverse
them to little-endian order. -/
def intToBcdLe (value length : ℕ) : List ℕ :=
  (packPairs (paddedDigits value length)).reverse

/-- Evaluation of `intToBcdLe` at the fixed length 5 used for frequencies. -/
lemma intToBcdLe_five (h : ℕ) :
    intToBcdLe h 5 =
      [16 * (h / 10 % 10) + h / 1 % 10,
       16 * (h / 1000 % 10) + h / 100 % 10,
       16 * (h / 100000 % 10) + h / 10000 % 10,
       16 * (h / 10000000 % 10) + h / 1000000 % 10,
       16 * (h / 1000000000 % 10) + h / 100000000 % 10] := by
  rfl

/-- Evaluation of `bcdToIntLe` on a 5-byte list. -/
lemma bcdToIntLe_five (b0 b1 b2 b3 b4 : ℕ) :
    bcdToIntLe [b0, b1, b2, b3, b4] =
      appendNib (appendNib (appendNib (appendNib (appendNib (appendNib
        (appendNib (appendNib (appendNib (appendNib 0
          (b4 / 16 % 16)) (b4 % 16))
          (b3 / 16 % 16)) (b3 % 16))
          (b2 / 16 % 16)) (b2 % 16))
          (b1 / 16 % 16)) (b1 % 16))
          (b0 / 16 % 16)) (b0 % 16) := by
  rfl

/-- Decoding one packed-BCD byte whose nibbles are genuine decimal digits
appends exactly those two digits. -/
lemma bcd_pair (n x y : ℕ) :
    appendNib (appendNib n ((16 * (x % 10) + y % 10) / 16 % 16))
        ((16 * (x % 10) + y % 10) % 16)
      = (n * 10 + x % 10) * 10 + y % 10 := by
  simp only [appendNib]
  split_ifs <;> omega

/-- Python's built-in `round` applied to the exact rational value
`num / den` (`den > 0`): round half to even, computed with integer
arithmetic (`f` is the floor, `2 * (num - f * den)` compared with `den`
decides which side of the half-way point the fraction lies on).  The
source computes `round((p / 100.0) * 255)` and `round((raw / 255.0) *
100)` on doubles; for every `p` in `0..100` and every `raw` in `0..255`
the double result equals this exact-rational result, so on the domains
the code reaches the model is exact. -/
def pyRound (num den : ℤ) : ℤ :=
  let f : ℤ := num.fdiv den
  let r2 : ℤ := 2 * (num - f * den)
  if r2 < den then f
  else if den < r2 then f + 1
  else if f % 2 = 0 then f else f + 1

/-- `CIVCommandSet._power_to_bytes`: clamp the percentage to `[0, 100]`,
scale to `raw = round(p / 100 * 255)` clamped to `[0, 255]`, render `raw`
as four decimal digits and pack them into two bytes
(`high = digits[0..1]`, `low = digits[2..3]`; each digit is below 10 so
the `& 0xF` masks are identities and `<< 4 | ` is `16 * hi + lo`). -/
def powerToBytes (power : ℤ) : List ℕ :=
  let p : ℤ := min (max power 0) 100
  let raw : ℤ := min (max (pyRound (p * 255) 100) 0) 255
  let r : ℕ := raw.toNat
  [16 * (r / 1000 % 10) + r / 100 % 10, 16 * (r / 10 % 10) + r % 10]

/-- `CIVCommandSet._scale_power`: return 0 unless the payload is exactly
2 bytes; otherwise assemble the decimal representations of the four
nibbles in big-endian byte order (same `f"{hi}{lo}"` appending as
`_bcd_to_int_le`, without the byte reversal), read the digit string as an
integer, and scale `round(raw / 255 * 100)`. -/
def scalePower (raw_bytes : List ℕ) : ℤ :=
  if raw_bytes.length = 2 then
    let rawValue : ℕ :=
      raw_bytes.foldl (fun n b => appendNib (appendNib n (b / 16 % 16)) (b % 16)) 0
    pyRound (rawValue * 100) 255
  else 0

/-- `CIVSerial.send_command`: the frame written to the serial port is
`PREAMBLE ++ radio_addr ++ CONTROLLER_ADDR ++ command ++ subcommand ++
data ++ EOM`, with `PREAMBLE = FE FE`, `CONTROLLER_ADDR = CE`,
`EOM = FD`. -/
def buildFrame (radioAddr : ℕ) (command subcommand data : List ℕ) : List ℕ :=
  [0xFE, 0xFE, radioAddr, 0xCE] ++ command ++ subcommand ++ data ++ [0xFD]

/-- `CIVSerial.receive_response`, over the sequence of frames delivered by
successive `_read_frame` calls (each element is one `read_until(EOM)`
result; an empty element is a read timeout, and once the stream is
exhausted every further read times out).  The wall-clock 2-second
correlation timeout is not modelled: it can only cut the loop short after
frames that the loop would anyway skip, and the modelled stream is
finite. -/
def receiveResponse (radioAddr : ℕ) : List (List ℕ) → List ℕ
  | [] => []
  | frame :: rest =>
    if frame = [] then []
    else if ¬(frame.take 2 = [0xFE, 0xFE]) ∨ frame.length < 6 then
      receiveResponse radioAddr rest
    else if (frame.drop 2).take 1 = [radioAddr] ∧ (frame.drop 3).take 1 = [0xCE] then
      receiveResponse radioAddr rest
    else if (frame.drop 2).take 1 = [0xCE] ∧ (frame.drop 3).take 1 = [radioAddr] then
      let body := (frame.drop 4).dropLast
      if body.length = 1 then body
      else if body.length < 2 then []
      else body.drop 2
    else receiveResponse radioAddr rest

/-- Frame classes of the specification's `classifyFrame`. -/
inductive FrameClass : Type
  | malformed
  | echo
  | response
  | other
deriving DecidableEq

/-- Modelled from the spec: `classifyFrame(frame, radioAddr,
controllerAddr)` — Malformed if the frame does not start with the
preamble or is shorter than 6 bytes; Echo if destination is the radio and
source the controller; a genuine Response if destination is the
controller and source the radio. -/
def classifyFrame (radioAddr controllerAddr : ℕ) (frame : List ℕ) : FrameClass :=
  if ¬(frame.take 2 = [0xFE, 0xFE]) ∨ frame.length < 6 then .malformed
  else if (frame.drop 2).take 1 = [radioAddr] ∧ (frame.drop 3).take 1 = [controllerAddr] then
    .echo
  else if (frame.drop 2).take 1 = [controllerAddr] ∧ (frame.drop 3).take 1 = [radioAddr] then
    .response
  else .other

/-- Modelled from the spec: the data returned from a Response frame — the
body is the frame stripped of preamble, addresses and terminator; a
1-byte body (StatusOnly) is returned unstripped, a body of length ≥ 2 is
returned with the leading command+subcommand bytes removed, and anything
else yields no data. -/
def responseData (frame : List ℕ) : List ℕ :=
  let body := (frame.drop 4).dropLast
  if body.length = 1 then body
  else if 2 ≤ body.length then body.drop 2
  else []

/-- Modelled from the spec: the receive loop returns the data of the
first genuine Response frame arriving before any timeout (empty read),
and empty bytes when no such frame arrives. -/
def receiveSpec (radioAddr : ℕ) (frames : List (List ℕ)) : List ℕ :=
  match (frames.takeWhile fun f => decide (f ≠ [])).find?
      (fun f => decide (classifyFrame radioAddr 0xCE f = FrameClass.response)) with
  | some f => responseData f
  | none => []

/-- A high-level `data` argument of `send_command_by_name`: a Python
`int`, `str`, or `bytes`/`bytearray` value (Python `None` is modelled as
`Option.none` at the call sites). -/
inductive Arg : Type
  | num (n : ℤ)
  | str (s : String)
  | raw (bs : List ℕ)
deriving DecidableEq

/-- The emptiness test of `_process_request_data`:
`(isinstance(data, (bytes, bytearray)) and len(data) == 0) or data == ""`. -/
def argIsEmpty : Arg → Bool
  | .raw bs => bs.isEmpty
  | .str s => s = ""
  | .num _ => false

/-- Value of a non-empty all-digit character sequence, `none`
otherwise. -/
def digitsToNat? (cs : List Char) : Option ℕ :=
  if cs ≠ [] ∧ cs.all (fun c => c.isDigit) then
    some (cs.foldl (fun n c => n * 10 + (c.toNat - 48)) 0)
  else none

/-- Python `int(str)` on a plain decimal literal: an optional sign
followed by decimal digits (surrounding whitespace and digit-group
underscores, which Python also tolerates, are not exercised by this
code's callers and are not modelled). -/
def strToInt? (s : String) : Option ℤ :=
  match s.data with
  | [] => none
  | c :: cs =>
    if c = Char.ofNat 45 then (digitsToNat? cs).map fun n => -(n : ℤ)
    else if c = Char.ofNat 43 then (digitsToNat? cs).map fun n => (n : ℤ)
    else (digitsToNat? (c :: cs)).map fun n => (n : ℤ)

/-- Python `str.upper()`, for the ASCII strings this code handles:
upper-case every character. -/
def strUpper (s : String) : String :=
  String.mk (s.data.map Char.toUpper)

/-- Python `int(data)`: an `int` passes through, a string is parsed as a
decimal integer (a non-numeric string raises `ValueError`), and `bytes`
raise `TypeError`. -/
def argToInt : Arg → Except String ℤ
  | .num n => .ok n
  | .str s =>
    match strToInt? s with
    | some n => .ok n
    | none => .error ("invalid literal for int: " ++ s)
  | .raw _ => .error "int argument cannot be bytes"

/-- The `mode_map` of `CIVCommandSet._encode_mode` (name → code byte). -/
def modeNameTable : List (String × ℕ) :=
  [("LSB", 0x00), ("USB", 0x01), ("AM", 0x02), ("CW", 0x03),
   ("RTTY", 0x04), ("FM", 0x05), ("CW-R", 0x07), ("RTYR", 0x08)]

/-- `CIVCommandSet._encode_mode`: an `int` is masked with `0xFF` into a
single byte; a string is upper-cased and looked up in `mode_map`, falling
back to a numeric parse masked with `0xFF`; anything else (an
unrecognized non-numeric string, or a `bytes` value, whose `str()` form
is not in the table and which `int()` rejects) raises `ValueError`.
Python `&` on an arbitrary int equals `% 256` with a nonnegative result,
`Int.emod` here. -/
def encodeMode : Arg → Except String (List ℕ)
  | .num n => .ok [(n % 256).toNat]
  | .str s =>
    match modeNameTable.lookup (strUpper s) with
    | some c => .ok [c]
    | none =>
      match strToInt? s with
      | some k => .ok [(k % 256).toNat]
      | none => .error ("Unknown mode " ++ s)
  | .raw _ => .error "Unknown mode"

/-- `CIVCommandSet._filter_width_to_bcd` on an `int` width:
`tens = width // 10`, `ones = width % 10`, one byte
`((tens & 0xF) << 4) | (ones & 0xF)`.  Lean's `Int` `/` and `%` are
Euclidean and coincide with Python's floor division and modulo for the
positive divisors 10 and 16; since the low nibble is below 16 the `|` is
addition. -/
def filterWidthToBcd (width : ℤ) : List ℕ :=
  let tens : ℤ := width / 10
  let ones : ℤ := width % 10
  [16 * (tens % 16).toNat + (ones % 16).toNat]

/-- `CIVCommandSet._process_request_data`: `TUNE` always emits the fixed
activate byte; `None` or an empty argument means a read (empty payload);
otherwise the argument is encoded per command.  The default pass-through
branch (bytes kept, anything else UTF-8 encoded via `str`) is unreachable
through `send_command_by_name`, which only accepts registry names, but is
modelled for completeness.  `FREQUENCY` uses `_int_to_bcd_le`, which
raises on a negative value (the `'-'` sign is not a digit). -/
def processRequestData (name : String) (data : Option Arg) : Except String (List ℕ) :=
  if name = "TUNE" then .ok [0x02]
  else
    match data with
    | none => .ok []
    | some a =>
      if argIsEmpty a then .ok []
      else if name = "FREQUENCY" then
        (argToInt a).bind fun v =>
          if v < 0 then .error "negative frequency is not BCD-encodable"
          else .ok (intToBcdLe v.toNat 5)
      else if name = "POWER_OUTPUT" then (argToInt a).map powerToBytes
      else if name = "FILTER_WIDTH" then (argToInt a).map filterWidthToBcd
      else if name = "MODE" then encodeMode a
      else if name = "QSK" then (argToInt a).map fun v => [(v % 256).toNat]
      else
        match a with
        | .raw bs => .ok bs
        | .num n => .ok ((toString n).toUTF8.toList.map fun c => c.toNat)
        | .str s => .ok (s.toUTF8.toList.map fun c => c.toNat)

/-- A processed response of `CIVCommandSet`: the possible Python return
values of `send_command_by_name` — a decoded integer, a decoded string
(mode label), `None`, raw bytes passed through, or the hexadecimal status
string of the 1-byte write-acknowledge bypass. -/
inductive RespValue : Type
  | intVal (n : ℤ)
  | strVal (s : String)
  | noneVal
  | bytesVal (bs : List ℕ)
  | statusVal (s : String)
deriving DecidableEq

/-- The `mode_map` of `CIVCommandSet._process_response` (code byte →
name). -/
def modeByteTable : List (ℕ × String) :=
  [(0x00, "LSB"), (0x01, "USB"), (0x02, "AM"), (0x03, "CW"),
   (0x04, "RTTY"), (0x05, "FM"), (0x07, "CW-R"), (0x08, "RTYR")]

/-- `CIVCommandSet._process_response`: FREQUENCY and FILTER_WIDTH decode
through `_bcd_to_int_le` (FILTER_WIDTH returns `None` on empty data),
POWER_OUTPUT through `_scale_power`, MODE looks the first byte up in
`mode_map` with an `UNKNOWN(<n>)` fallback (`None` on empty data), QSK
returns the first byte (`None` on empty data), and any other name passes
the raw bytes through. -/
def processResponse (name : String) (data : List ℕ) : RespValue :=
  if name = "FREQUENCY" then .intVal (bcdToIntLe data)
  else if name = "POWER_OUTPUT" then .intVal (scalePower data)
  else if name = "FILTER_WIDTH" then
    match data with
    | [] => .noneVal
    | _ :: _ => .intVal (bcdToIntLe data)
  else if name = "MODE" then
    match data with
    | [] => .noneVal
    | b :: _ => .strVal ((modeByteTable.lookup b).getD ("UNKNOWN(" ++ Nat.repr b ++ ")"))
  else if name = "QSK" then
    match data with
    | [] => .noneVal
    | b :: _ => .intVal b
  else .bytesVal data

/-- One uppercase hexadecimal digit (value below 16). -/
def hexDigit (n : ℕ) : Char :=
  if n < 10 then Char.ofNat (48 + n) else Char.ofNat (55 + n)

/-- Python `bytes.hex().upper()`: two uppercase hexadecimal digits per
byte. -/
def bytesHexUpper (bs : List ℕ) : String :=
  String.mk ((bs.map fun b => [hexDigit (b / 16 % 16), hexDigit (b % 16)]).flatten)

/-- The command registry `CIVCommandSet.commands`: name → (Cn, Sc). -/
def commands : List (String × ℕ × ℕ) :=
  [("FREQUENCY", (0x25, 0x00)), ("FILTER_WIDTH", (0x1A, 0x03)),
   ("POWER_OUTPUT", (0x14, 0x0A)), ("MODE", (0x26, 0x00)),
   ("QSK", (0x16, 0x47)), ("TUNE", (0x1C, 0x01))]

/-- `CIVCommandSet.send_command_by_name`, with the serial transport
abstracted: `reply` is what `CIVSerial.send_and_receive` (that is,
`receive_response`) hands back for this request.  The first component
collects the frames written to the transport during the call (empty when
the name is not in the registry — the `KeyError` is raised before
anything is sent — or when encoding fails).  A write (non-empty payload)
answered by a 1-byte reply returns the reply as an uppercase hex status
string; everything else goes through `_process_response`. -/
def sendCommandByName (radioAddr : ℕ) (name : String) (data : Option Arg)
    (reply : List ℕ) : List (List ℕ) × Except String RespValue :=
  match commands.lookup name with
  | none => ([], .error ("Command " ++ name ++ " not found in command set."))
  | some (cn, sc) =>
    match processRequestData name data with
    | .error e => ([], .error e)
    | .ok dataBytes =>
      let frame := buildFrame radioAddr [cn] [sc] dataBytes
      if dataBytes ≠ [] ∧ reply.length = 1 then
        ([frame], .ok (.statusVal (bytesHexUpper reply)))
      else ([frame], .ok (processResponse name reply))

end CIV

open CIV

set_option maxHeartbeats 1000000 in
/-- C1: for every integer `h` in `[0, 9999999999]`, decoding the 5-byte
little-endian packed-BCD encoding of `h` gives back `h`:
`_bcd_to_int_le(_int_to_bcd_le(h, 5)) == h`. -/
theorem freq_bcd_roundtrip (h : ℕ) (hle : h ≤ 9999999999) :
    bcdToIntLe (intToBcdLe h 5) = h := by
  rw [intToBcdLe_five, bcdToIntLe_five]
  simp only [bcd_pair]
  omega

/-- C1 witness: the round-trip at the concrete frequency 14013000 Hz. -/
theorem freq_bcd_roundtrip_witness :
    14013000 ≤ 9999999999 ∧ bcdToIntLe (intToBcdLe 14013000 5) = 14013000 :=
  ⟨by norm_num, freq_bcd_roundtrip 14013000 (by norm_num)⟩

set_option maxRecDepth 100000 in
/-- The power round-trip property checked over the whole finite domain
`0..100`. -/
lemma power_roundtrip_all :
    ∀ p ∈ Finset.Icc (0 : ℤ) 100, |scalePower (powerToBytes p) - p| ≤ 1 := by
  decide

/-- C3: for every integer percentage `p` in `[0, 100]`, decoding the
power encoding of `p` is within ±1 of `p`:
`|_scale_power(_power_to_bytes(p)) - p| <= 1`. -/
theorem power_roundtrip (p : ℤ) (h0 : 0 ≤ p) (h1 : p ≤ 100) :
    |scalePower (powerToBytes p) - p| ≤ 1 :=
  power_roundtrip_all p (Finset.mem_Icc.mpr ⟨h0, h1⟩)

/-- C3 witness: the round-trip at 75 percent. -/
theorem power_roundtrip_witness :
    |scalePower (powerToBytes 75) - 75| ≤ 1 :=
  power_roundtrip 75 (by norm_num) (by norm_num)

/-- C9: `_scale_power` returns 0 on every payload whose length is not
exactly 2 — including the empty payload produced by a timeout — and a
genuine 0-percent reading (payload `00 00`) also decodes to 0, so the two
are indistinguishable. -/
theorem scale_power_wrong_length_zero :
    (∀ bs : List ℕ, bs.length ≠ 2 → scalePower bs = 0) ∧
      scalePower [0x00, 0x00] = 0 := by
  constructor
  · intro bs h
    simp [scalePower, h]
  · decide

/-- C9 witness: the empty (timeout) payload decodes to 0, like `00 00`. -/
theorem scale_power_wrong_length_zero_witness :
    scalePower [] = 0 ∧ scalePower [0x00, 0x00] = 0 :=
  ⟨scale_power_wrong_length_zero.1 [] (by decide),
   scale_power_wrong_length_zero.2⟩

/-- C2 counterexample: the FREQUENCY decoder applied to the stripped
reply body `00 30 01 40 01` does not return 14013000 Hz (it returns
140013000 Hz: the reversed bytes `01 40 01 30 00` assemble to the digit
string "0140013000"). -/
theorem freq_read_decode_counterexample :
    bcdToIntLe [0x00, 0x30, 0x01, 0x40, 0x01] ≠ 14013000 := by
  decide

/-- Unfolding `receiveSpec` one frame at a time. -/
lemma receiveSpec_cons (r : ℕ) (f : List ℕ) (rest : List (List ℕ)) (hf : f ≠ []) :
    receiveSpec r (f :: rest) =
      if classifyFrame r 0xCE f = FrameClass.response then responseData f
      else receiveSpec r rest := by
  by_cases hc : classifyFrame r 0xCE f = FrameClass.response
  · simp [receiveSpec, List.takeWhile_cons, hf, hc]
  · simp [receiveSpec, List.takeWhile_cons, hf, hc]

/-- C4: `receive_response` coincides with the specification's receive
loop: echo frames (destination = radio, source = controller) and
malformed frames (no preamble prefix or length < 6) are skipped silently
and never contribute data; the returned data comes only from the first
genuine response frame (destination = controller, source = radio), whose
1-byte body is returned unstripped and whose body of length ≥ 2 loses its
leading command+subcommand bytes; with no genuine response before a
timeout the result is empty bytes. -/
theorem receive_response_matches_spec (r : ℕ) (fs : List (List ℕ)) :
    receiveResponse r fs = receiveSpec r fs := by
  induction fs with
  | nil => rfl
  | cons f rest ih =>
    by_cases hf : f = []
    · subst hf; rfl
    · rw [receiveSpec_cons r f rest hf]
      by_cases hm : ¬(f.take 2 = [0xFE, 0xFE]) ∨ f.length < 6
      · have hcl : classifyFrame r 0xCE f = FrameClass.malformed := by
          simp only [classifyFrame, if_pos hm]
        simp only [receiveResponse, if_neg hf, if_pos hm, hcl, ih]
        simp
      · by_cases he : (f.drop 2).take 1 = [r] ∧ (f.drop 3).take 1 = [0xCE]
        · have hcl : classifyFrame r 0xCE f = FrameClass.echo := by
            simp only [classifyFrame, if_neg hm, if_pos he]
          simp only [receiveResponse, if_neg hf, if_neg hm, if_pos he, hcl, ih]
          simp
        · by_cases hr : (f.drop 2).take 1 = [0xCE] ∧ (f.drop 3).take 1 = [r]
          · have hcl : classifyFrame r 0xCE f = FrameClass.response := by
              simp only [classifyFrame, if_neg hm, if_neg he, if_pos hr]
            simp only [receiveResponse, if_neg hf, if_neg hm, if_neg he, if_pos hr, hcl,
              if_pos rfl, responseData]
            split_ifs <;> first | rfl | omega
          · have hcl : classifyFrame r 0xCE f = FrameClass.other := by
              simp only [classifyFrame, if_neg hm, if_neg he, if_neg hr]
            simp only [receiveResponse, if_neg hf, if_neg hm, if_neg he, if_neg hr, hcl, ih]
            simp

/-- Every entry of a padded digit list is a decimal digit. -/
lemma paddedDigits_lt (v L : ℕ) : ∀ d ∈ paddedDigits v L, d < 10 := by
  intro d hd
  simp only [paddedDigits, List.mem_map, List.mem_range] at hd
  obtain ⟨i, _, hv⟩ := hd
  omega

/-- Packing decimal digits pairwise yields bytes below `0xA0`. -/
lemma packPairs_lt : ∀ ds : List ℕ, (∀ d ∈ ds, d < 10) → ∀ b ∈ packPairs ds, b < 160
  | [], _, b, hb => by simp [packPairs] at hb
  | [a], _, b, hb => by simp [packPairs] at hb
  | a :: c :: rest, h, b, hb => by
    simp only [packPairs, List.mem_cons] at hb
    rcases hb with rfl | hb
    · have ha := h a (by simp)
      have hc := h c (by simp)
      omega
    · exact packPairs_lt rest (fun d hd => h d (by simp [hd])) b hb

/-- Every byte of a little-endian packed-BCD encoding is below `0xA0`,
in particular never the terminator `0xFD`. -/
lemma intToBcdLe_lt (v L : ℕ) : ∀ b ∈ intToBcdLe v L, b < 160 := by
  intro b hb
  simp only [intToBcdLe, List.mem_reverse] at hb
  exact packPairs_lt _ (paddedDigits_lt v L) b hb

/-- Both bytes of a power encoding are below `0xA0`. -/
lemma powerToBytes_lt (p : ℤ) : ∀ b ∈ powerToBytes p, b < 160 := by
  intro b hb
  simp only [powerToBytes, List.mem_cons, List.not_mem_nil, or_false] at hb
  rcases hb with rfl | rfl <;> omega

/-- The filter-width byte has a decimal low nibble, so it is never the
terminator `0xFD` (whose low nibble is 13). -/
lemma filterWidthToBcd_ne (w : ℤ) : ∀ b ∈ filterWidthToBcd w, b ≠ 253 := by
  intro b hb
  simp only [filterWidthToBcd, List.mem_cons, List.not_mem_nil, or_false] at hb
  subst hb
  have h1 : (0 : ℤ) ≤ w % 10 := Int.emod_nonneg _ (by norm_num)
  have h2 : w % 10 < 10 := Int.emod_lt_of_pos _ (by norm_num)
  have h3 : (0 : ℤ) ≤ w / 10 % 16 := Int.emod_nonneg _ (by norm_num)
  have h4 : w / 10 % 16 < 16 := Int.emod_lt_of_pos _ (by norm_num)
  omega

/-- `_process_response` never produces the hexadecimal status rendering:
that happens only on the write-acknowledge bypass. -/
lemma processResponse_ne_statusVal (name : String) (data : List ℕ) (s : String) :
    processResponse name data ≠ RespValue.statusVal s := by
  unfold processResponse
  split_ifs <;> (cases data <;> simp)

/-- C2 (amended): a read of command FREQUENCY (radio address 0x94) writes
exactly the 7-byte frame `FE FE 94 CE 25 00 FD`, and the frequency
decoder applied to the stripped reply body `00 30 01 40 01` returns
140013000 Hz (not 14013000 Hz: the reversed bytes form the digit string
"0140013000"). -/
theorem freq_read_frame_decode :
    sendCommandByName 0x94 "FREQUENCY" none [0x00, 0x30, 0x01, 0x40, 0x01]
      = ([[0xFE, 0xFE, 0x94, 0xCE, 0x25, 0x00, 0xFD]],
         .ok (.intVal 140013000)) :=
  rfl

/-- C5: a write invocation (registered name, non-empty encoded payload)
whose transport reply is exactly one byte returns that byte rendered as
an uppercase two-hex-digit string, and `_process_response` is never the
source of such a value. -/
theorem write_status_bypass (r : ℕ) (name : String) (data : Option Arg) (cn sc : ℕ)
    (db : List ℕ) (b : ℕ)
    (hcmd : commands.lookup name = some (cn, sc))
    (henc : processRequestData name data = .ok db)
    (hne : db ≠ []) :
    sendCommandByName r name data [b]
      = ([buildFrame r [cn] [sc] db], .ok (.statusVal (bytesHexUpper [b]))) ∧
    ∀ name2 data2, processResponse name2 data2 ≠ RespValue.statusVal (bytesHexUpper [b]) := by
  constructor
  · simp only [sendCommandByName, hcmd, henc]
    simp [hne]
  · intro name2 data2
    exact processResponse_ne_statusVal name2 data2 _

/-- C5 witness: writing 75 percent output power and receiving the 1-byte
reply `FB` returns the status string, not a decoded power value. -/
theorem write_status_bypass_witness :
    sendCommandByName 0x94 "POWER_OUTPUT" (some (Arg.num 75)) [0xFB]
      = ([buildFrame 0x94 [0x14] [0x0A] [0x01, 0x91]],
         .ok (.statusVal (bytesHexUpper [0xFB]))) :=
  (write_status_bypass 0x94 "POWER_OUTPUT" (some (Arg.num 75)) 0x14 0x0A
    [0x01, 0x91] 0xFB rfl rfl (by decide)).1

/-- C6 counterexample: the encoder does not reject payloads containing
the terminator byte: encoding QSK argument 253 yields the payload `FD`
with no error, and the frame written for it carries that `FD` inside the
payload. -/
theorem encode_terminator_counterexample :
    processRequestData "QSK" (some (Arg.num 253)) = .ok [0xFD] ∧
    (sendCommandByName 0x94 "QSK" (some (Arg.num 253)) []).1
      = [[0xFE, 0xFE, 0x94, 0xCE, 0x16, 0x47, 0xFD, 0xFD]] :=
  ⟨rfl, rfl⟩

/-- C6 (amended): no terminator check is performed anywhere; for the
BCD/fixed-encoded commands FREQUENCY, POWER_OUTPUT, FILTER_WIDTH and TUNE
the produced payload can never contain the terminator byte `0xFD`
(their bytes are range-constrained by construction), while MODE and QSK
encode arbitrary byte values and can emit `0xFD`. -/
theorem encode_no_terminator_bcd_commands (name : String) (data : Option Arg)
    (db : List ℕ)
    (hname : name = "FREQUENCY" ∨ name = "POWER_OUTPUT" ∨
      name = "FILTER_WIDTH" ∨ name = "TUNE")
    (henc : processRequestData name data = .ok db) :
    (0xFD : ℕ) ∉ db := by
  intro hmem
  rcases hname with rfl | rfl | rfl | rfl
  · cases data with
    | none =>
      simp only [processRequestData] at henc
      simp at henc
      subst henc
      simp at hmem
    | some a =>
      by_cases he : argIsEmpty a = true
      · simp [processRequestData, he] at henc
        subst henc
        simp at hmem
      · cases hv : argToInt a with
        | error e => simp [processRequestData, he, hv, Except.bind] at henc
        | ok v =>
          by_cases hneg : v < 0
          · simp [processRequestData, he, hv, Except.bind, hneg] at henc
          · simp [processRequestData, he, hv, Except.bind, hneg] at henc
            subst henc
            exact absurd (intToBcdLe_lt _ _ _ hmem) (by norm_num)
  · cases data with
    | none =>
      simp [processRequestData] at henc
      subst henc
      simp at hmem
    | some a =>
      by_cases he : argIsEmpty a = true
      · simp [processRequestData, he] at henc
        subst henc
        simp at hmem
      · cases hv : argToInt a with
        | error e => simp [processRequestData, he, hv, Except.map] at henc
        | ok v =>
          simp [processRequestData, he, hv, Except.map] at henc
          subst henc
          exact absurd (powerToBytes_lt _ _ hmem) (by norm_num)
  · cases data with
    | none =>
      simp [processRequestData] at henc
      subst henc
      simp at hmem
    | some a =>
      by_cases he : argIsEmpty a = true
      · simp [processRequestData, he] at henc
        subst henc
        simp at hmem
      · cases hv : argToInt a with
        | error e => simp [processRequestData, he, hv, Except.map] at henc
        | ok v =>
          simp [processRequestData, he, hv, Except.map] at henc
          subst henc
          exact filterWidthToBcd_ne _ _ hmem rfl
  · simp [processRequestData] at henc
    subst henc
    simp at hmem

/-- C6 witness: the amended no-terminator property at the TUNE command
with no argument (payload `02`). -/
theorem encode_no_terminator_bcd_commands_witness :
    (0xFD : ℕ) ∉ ([0x02] : List ℕ) :=
  encode_no_terminator_bcd_commands "TUNE" none [0x02]
    (by simp) rfl

/-- C7: a name absent from the command registry makes
`send_command_by_name` raise (`KeyError`, surfaced to the caller) and
nothing is written to the transport for that request. -/
theorem unknown_command_error (r : ℕ) (name : String) (data : Option Arg)
    (reply : List ℕ) (h : commands.lookup name = none) :
    sendCommandByName r name data reply
      = ([], .error ("Command " ++ name ++ " not found in command set.")) := by
  simp [sendCommandByName, h]

/-- C7 witness: the unknown name VOLUME raises and writes no frame. -/
theorem unknown_command_error_witness :
    sendCommandByName 0x94 "VOLUME" none []
      = ([], .error ("Command VOLUME not found in command set.")) :=
  unknown_command_error 0x94 "VOLUME" none [] (by decide)

set_option maxRecDepth 100000 in
/-- C8: MODE decoding maps the table bytes to their labels, maps every
byte outside the table to `UNKNOWN(<n>)` with `n` decimal (never
failing), decoding the encoding of "USB" yields "USB", and byte `0x09`
decodes to `UNKNOWN(9)`. -/
theorem mode_decode_total :
    (∀ b : ℕ, b < 256 →
      b ∉ ([0x00, 0x01, 0x02, 0x03, 0x04, 0x05, 0x07, 0x08] : List ℕ) →
      processResponse "MODE" [b] = .strVal ("UNKNOWN(" ++ Nat.repr b ++ ")")) ∧
    processResponse "MODE" [0x00] = .strVal "LSB" ∧
    processResponse "MODE" [0x01] = .strVal "USB" ∧
    processResponse "MODE" [0x02] = .strVal "AM" ∧
    processResponse "MODE" [0x03] = .strVal "CW" ∧
    processResponse "MODE" [0x04] = .strVal "RTTY" ∧
    processResponse "MODE" [0x05] = .strVal "FM" ∧
    processResponse "MODE" [0x07] = .strVal "CW-R" ∧
    processResponse "MODE" [0x08] = .strVal "RTYR" ∧
    processRequestData "MODE" (some (Arg.str "USB")) = .ok [0x01] ∧
    processResponse "MODE" [0x09] = .strVal "UNKNOWN(9)" :=
  ⟨by decide, rfl, rfl, rfl, rfl, rfl, rfl, rfl, rfl, rfl, rfl⟩

/-- C8 witness: the out-of-table byte `0x0B` decodes to `UNKNOWN(11)`. -/
theorem mode_decode_total_witness :
    processResponse "MODE" [0x0B] = RespValue.strVal "UNKNOWN(11)" :=
  mode_decode_total.1 11 (by norm_num) (by decide)

/-- C10: a read invocation (no argument) does not bypass 1-byte status
replies: a FREQUENCY read whose reply body is the single NACK byte `FA`
is fed to `_bcd_to_int_le`, whose decimal-formatted nibbles 15 and 10
concatenate to the digit string "1510", so the call returns the integer
1510. -/
theorem freq_read_nack_decodes :
    sendCommandByName 0x94 "FREQUENCY" none [0xFA]
      = ([[0xFE, 0xFE, 0x94, 0xCE, 0x25, 0x00, 0xFD]], .ok (.intVal 1510)) ∧
    bcdToIntLe [0xFA] = 1510 :=
  ⟨rfl, rfl⟩
